/-
Verification of the LEDWALLV3 coordinate-mapping and calibration core.

Shallow embedding of:
  * the ROI geometry and session-start validation in
    src/components/CameraPanel.tsx (startMapping, resumeMapping,
    pollMappingStatus, handleMouseMove, the ROI-overlay effect,
    exportMapping, importMapping);
  * the Stroke-to-LED engine in src/components/DrawingCanvas.tsx
    (calculateAverageDistance, distanceToLineSegment, updateLEDsFromLines).

JavaScript numbers are modelled as exact rationals (ℚ); the square roots
computed by the engine live in ℝ.  JavaScript `Math.round` is
`⌊x + 1/2⌋` (round half toward +∞), which matches JS on every finite
input.  Colors are modelled as parsed RGB triples: every stroke the
program builds carries a color string of the exact shape
`rgb(r, g, b)` (DrawingCanvas handleMouseUp), which is the only shape
the engine's regex accepts, so the parse always succeeds on
program-built strokes.
-/
import Mathlib

namespace LEDWall

/-- A 2-D point `{x, y}`; the space (display / intrinsic / normalized /
canvas) is implicit from context, as in `src/types/index.ts`. -/
structure Pt where
  x : ℚ
  y : ℚ
deriving DecidableEq, Repr

/-- An RGB color triple (`RGBColor` in `src/types/index.ts`). -/
structure RGB where
  r : ℕ
  g : ℕ
  b : ℕ
deriving DecidableEq, Repr

/-- The reserved sentinel test `coord.x === 0 && coord.y === 0`
("LED not found"), as used throughout DrawingCanvas and CameraPanel. -/
def isSentinel (c : Pt) : Bool :=
  decide (c.x = 0 ∧ c.y = 0)

/-- Number of valid (non-sentinel) coordinates in an LED list
(CameraPanel renders it as `coords.filter(c => c.x !== 0 || c.y !== 0).length`). -/
def countValid (coords : List Pt) : ℕ :=
  (coords.filter (fun c => ! isSentinel c)).length

/-! ## Geometry / transform module

The scale factors come from the camera utilities' `calculateScaling`
(staged in `src/src/App.tsx` lines 245–253):
`scaleX = video.videoWidth / rect.width`,
`scaleY = video.videoHeight / rect.height`.  The two conversion sites
(CameraPanel handleMouseMove lines 810–815, and the ROI-overlay effect
lines 854–861, which uses `inverseScale = 1 / scale`) are embedded from
CameraPanel. -/

/-- The camera utilities' `calculateScaling` (src/src/App.tsx lines
245–253): per-axis scale factors from the display rect to the intrinsic
video size. -/
def calculateScaling (videoW videoH rectW rectH : ℚ) : ℚ × ℚ :=
  (videoW / rectW, videoH / rectH)

/-- Display→intrinsic conversion (CameraPanel handleMouseMove:
`displayX * scaleX`, `displayY * scaleY`). -/
def displayToIntrinsic (p : Pt) (scaleX scaleY : ℚ) : Pt :=
  ⟨p.x * scaleX, p.y * scaleY⟩

/-- Intrinsic→display conversion (CameraPanel ROI-overlay effect:
`roi.x * inverseScaleX` with `inverseScaleX = 1 / scaleX`). -/
def intrinsicToDisplay (p : Pt) (scaleX scaleY : ℚ) : Pt :=
  ⟨p.x * (1 / scaleX), p.y * (1 / scaleY)⟩

/-! ## Session-start validation (CameraPanel startMapping) -/

/-- An ROI rectangle in intrinsic video pixels (`ROI` in
`src/types/index.ts`). -/
structure Roi where
  x : ℚ
  y : ℚ
  width : ℚ
  height : ℚ
deriving DecidableEq, Repr

/-- Normalized ROI, the only ROI form sent to the detector. -/
structure NormalizedRoi where
  x : ℚ
  y : ℚ
  w : ℚ
  h : ℚ
deriving DecidableEq, Repr

/-- CameraPanel startMapping lines 195–200: divide the intrinsic ROI by
the intrinsic video dimensions per axis. -/
def normalizeRoi (r : Roi) (videoW videoH : ℚ) : NormalizedRoi :=
  ⟨r.x / videoW, r.y / videoH, r.width / videoW, r.height / videoH⟩

/-- The failure condition of the validation at startMapping lines
206–210.  The `isFinite` tests of the source are identically true in
the exact rational model (every ℚ is finite), so only the six ordering
tests remain. -/
def roiInvalidB (n : NormalizedRoi) : Bool :=
  decide (n.w ≤ 0) || decide (n.h ≤ 0) ||
  decide (n.x < 0) || decide (n.y < 0) ||
  decide (1 < n.x + n.w) || decide (1 < n.y + n.h)

/-- The JSON body of the `start_mapping` fetch (startMapping lines
242–247): the normalized ROI, `brightness / 100`, and the LED power
flag. -/
structure StartRequest where
  roi : NormalizedRoi
  brightness : ℚ
  ledPower : Bool
deriving DecidableEq, Repr

/-- The validation error surfaced when the ROI invariants fail
(`ERROR_MESSAGES.INVALID_ROI_COORDINATES`). -/
inductive ValidationError where
  | invalidRoiCoordinates
deriving DecidableEq, Repr

/-- The validation-to-fetch portion of CameraPanel startMapping
(lines 206–258): when the normalized ROI violates an invariant the
function alerts and returns before any fetch (`.error`, no request);
otherwise the single `start_mapping` request with the payload of lines
242–247 is issued (`.ok`). -/
def startMapping (n : NormalizedRoi) (brightness : ℚ) (ledPower : Bool) :
    Except ValidationError StartRequest :=
  if roiInvalidB n then .error .invalidRoiCoordinates
  else .ok ⟨n, brightness / 100, ledPower⟩

/-- The query parameters of the `resume_mapping` fetch
(resumeMapping line 307): `resume_from` and the raw `brightness`
state value (no `/ 100`). -/
structure ResumeQuery where
  resumeFrom : ℕ
  brightness : ℚ
deriving DecidableEq, Repr

/-- CameraPanel resumeMapping line 307 builds the resume query with the
raw brightness percentage. -/
def resumeMappingQuery (resumeFrom : ℕ) (brightness : ℚ) : ResumeQuery :=
  ⟨resumeFrom, brightness⟩

/-! ## Polling timing model

pollMappingStatus (CameraPanel lines 339–369) awaits `getMappingStatus`
and, only after that await resolves and while `status.running`, re-arms
itself with `setTimeout(pollMappingStatus, 1000)`.  With a fixed network
latency of `d` ms, invocation `k` of the chain therefore issues its
status request at time `k * (d + 1000)` and that request resolves `d`
later.

resumeMapping (lines 322–328) instead starts
`setInterval(async () => { await pollMappingStatus(); }, 1000)`: tick
`k` fires at `(k+1) * 1000` and issues a status request immediately,
regardless of whether any earlier request has resolved.  (Each tick's
invocation may in addition re-arm its own `setTimeout` chain; the model
keeps only the interval's own polls, which already suffice to overlap.) -/

/-- Issue time of the `k`-th status request of the fresh-start polling
chain, with network latency `d` ms. -/
def freshPollIssue (d k : ℕ) : ℕ :=
  k * (d + 1000)

/-- Issue time of the `k`-th status request issued by the resume path's
`setInterval` ticks. -/
def resumePollIssue (k : ℕ) : ℕ :=
  (k + 1) * 1000

/-- A request issued at `issue` with latency `d` is outstanding at time
`t` iff it has been issued and has not yet resolved. -/
def outstandingAt (issue d t : ℕ) : Prop :=
  issue ≤ t ∧ t < issue + d

instance (issue d t : ℕ) : Decidable (outstandingAt issue d t) := by
  unfold outstandingAt; infer_instance

/-! ## Mapping file codec (CameraPanel exportMapping / importMapping) -/

/-- JavaScript `Math.round`: round half toward +∞. -/
def jsRound (q : ℚ) : ℤ :=
  ⌊q + 1 / 2⌋

/-- The aspect-preserving placement of the ROI inside the fixed 160×90
canvas (exportMapping lines 562–589). -/
structure Placement where
  offX : ℚ
  offY : ℚ
  sw : ℚ
  sh : ℚ
deriving DecidableEq, Repr

/-- exportMapping lines 562–589: `canvasAspect = 160/90`; if
`roiAspect > canvasAspect` fit width (height scaled, vertically
centered), else fit height (width scaled, horizontally centered). -/
def roiPlacement (r : Roi) : Placement :=
  let roiAspect := r.width / r.height
  if roiAspect > 160 / 90 then
    ⟨0, (90 - 160 / roiAspect) / 2, 160, 160 / roiAspect⟩
  else
    ⟨(160 - 90 * roiAspect) / 2, 0, 90 * roiAspect, 90⟩

/-- One entry of the exported `leds` list: `{index, x, y}` with integer
canvas coordinates. -/
structure ExportLed where
  index : ℕ
  x : ℤ
  y : ℤ
deriving DecidableEq, Repr

/-- exportMapping lines 592–607: map each coordinate with its index,
return `null` for sentinels, place the rest at
`roiPlacement.origin + coord * roiPlacement.size` rounded to integers,
and filter the `null`s out. -/
def exportLedsAux (pl : Placement) : ℕ → List Pt → List ExportLed
  | _, [] => []
  | i, c :: cs =>
    if isSentinel c then exportLedsAux pl (i + 1) cs
    else ⟨i, jsRound (pl.offX + c.x * pl.sw), jsRound (pl.offY + c.y * pl.sh)⟩ ::
      exportLedsAux pl (i + 1) cs

/-- The mapping file shape built by exportMapping lines 610–640
(the non-numeric `version`/`name`/`created`/`wiring` strings are
omitted: no claim mentions them). -/
structure MappingFileM where
  totalLeds : ℕ
  validLeds : ℕ
  canvasW : ℕ
  canvasH : ℕ
  roiX : ℤ
  roiY : ℤ
  roiW : ℤ
  roiH : ℤ
  origROI : Roi
  videoW : ℚ
  videoH : ℚ
  leds : List ExportLed
deriving DecidableEq, Repr

/-- The mapping file exportMapping builds from a nonempty coordinate
list and a present ROI (lines 610–640). -/
def mkMappingFile (coords : List Pt) (r : Roi) (vw vh : ℚ) : MappingFileM :=
  let pl := roiPlacement r
  let leds := exportLedsAux pl 0 coords
  { totalLeds := coords.length, validLeds := leds.length,
    canvasW := 160, canvasH := 90,
    roiX := jsRound pl.offX, roiY := jsRound pl.offY,
    roiW := jsRound pl.sw, roiH := jsRound pl.sh,
    origROI := r, videoW := vw, videoH := vh, leds := leds }

/-- CameraPanel exportMapping (lines 551–664): `none` models the early
returns when there are no coordinates or no ROI (no file produced);
otherwise the mapping file is built from the ROI placement. -/
def exportMapping (coords : List Pt) (roi? : Option Roi) (vw vh : ℚ) :
    Option MappingFileM :=
  if coords.isEmpty then none
  else roi?.map (fun r => mkMappingFile coords r vw vh)

/-- `Math.max(0, Math.min(1, v))` from importMapping lines 684–685. -/
def clamp01 (q : ℚ) : ℚ :=
  max 0 (min 1 q)

/-- One iteration of the importMapping LED loop (lines 678–696):
recover the normalized coordinate from the file's canvas-space ROI,
clamp to [0,1], pad the accumulator with sentinel `(0,0)` entries up to
the LED's index, and write the coordinate at that index. -/
def importLedStep (rx ry rw rh : ℤ) (acc : List Pt) (led : ExportLed) : List Pt :=
  let nx := clamp01 (((led.x : ℚ) - (rx : ℚ)) / (rw : ℚ))
  let ny := clamp01 (((led.y : ℚ) - (ry : ℚ)) / (rh : ℚ))
  let padded := acc ++ List.replicate (led.index + 1 - acc.length) (⟨0, 0⟩ : Pt)
  padded.set led.index ⟨nx, ny⟩

/-- CameraPanel importMapping (lines 667–735): the recovered coordinate
list, the ROI restored verbatim from the file's `originalROI`, and the
video size restored from `originalROI.videoWidth/videoHeight`. -/
def importMapping (f : MappingFileM) : List Pt × Roi × ℚ × ℚ :=
  (f.leds.foldl (importLedStep f.roiX f.roiY f.roiW f.roiH) [],
   f.origROI, f.videoW, f.videoH)

/-- The spec's export/import example: LEDs `[(0.2,0.3),(0,0),(0.8,0.7)]`
with ROI `{x:100,y:50,width:200,height:150}` in a 1280×720 frame. -/
def specCoords : List Pt := [⟨1/5, 3/10⟩, ⟨0, 0⟩, ⟨4/5, 7/10⟩]

/-- The intrinsic-space ROI of the spec's export/import example. -/
def specRoi : Roi := ⟨100, 50, 200, 150⟩

/-- The file exportMapping produces for the spec's example (placement
20,0,120,90; LEDs at (44,27) and (116,63); sentinel dropped). -/
def specFile : MappingFileM :=
  ⟨3, 2, 160, 90, 20, 0, 120, 90, specRoi, 1280, 720, [⟨0, 44, 27⟩, ⟨2, 116, 63⟩]⟩

/-- A session with an elongated (10×200) ROI used to refute the blanket
rounding tolerance of the round-trip claim. -/
def cexRoi : Roi := ⟨0, 0, 10, 200⟩

/-- The file exported for the single LED `(0.5, 0.5)` over the 10×200
ROI: placement (77.75, 0, 4.5, 90) rounds to ROI (78, 0, 5, 90) and the
LED lands at canvas (80, 45). -/
def cexFile : MappingFileM :=
  ⟨1, 1, 160, 90, 78, 0, 5, 90, cexRoi, 1280, 720, [⟨0, 80, 45⟩]⟩

/-! ## Stroke-to-LED engine (DrawingCanvas)

Coordinates and stroke points stay in ℚ; the Euclidean distances the
engine compares are real square roots. -/

/-- The pairs `(coords[i], coords[j])` visited by the double loop of
calculateAverageDistance (DrawingCanvas lines 61–78): `i` ranges over
the list and `j` from `i+1` to `min(i+5, length) - 1`, i.e. each LED is
paired with up to 4 of its index-successors. -/
def adjacentPairs : List Pt → List (Pt × Pt)
  | [] => []
  | c :: cs => ((cs.take 4).map (fun c2 => (c, c2))) ++ adjacentPairs cs

/-- Euclidean distance `Math.sqrt(dx*dx + dy*dy)` between two points. -/
noncomputable def ptDist (a b : Pt) : ℝ :=
  Real.sqrt (((a.x - b.x) * (a.x - b.x) + (a.y - b.y) * (a.y - b.y) : ℚ) : ℝ)

/-- DrawingCanvas calculateAverageDistance (lines 55–81): 0.05 when the
coordinate list has fewer than 2 entries; otherwise the mean distance
over the index-adjacent pairs in which neither LED is the sentinel, or
0.05 again when no such pair exists (`count > 0 ? total/count : 0.05`). -/
noncomputable def calculateAverageDistance (coords : List Pt) : ℝ :=
  if coords.length < 2 then 1 / 20
  else if ((adjacentPairs coords).filter
      (fun pr => ! isSentinel pr.1 && ! isSentinel pr.2)).length = 0 then 1 / 20
  else (((adjacentPairs coords).filter
      (fun pr => ! isSentinel pr.1 && ! isSentinel pr.2)).map
        (fun pr => ptDist pr.1 pr.2)).sum /
    (((adjacentPairs coords).filter
      (fun pr => ! isSentinel pr.1 && ! isSentinel pr.2)).length : ℝ)

/-- DrawingCanvas updateLEDsFromLines lines 157–158: the proximity
threshold actually used is the average distance halved. -/
noncomputable def proximityThreshold (coords : List Pt) : ℝ :=
  calculateAverageDistance coords / 2

/-- DrawingCanvas distanceToLineSegment (lines 108–140): distance from
a point to a segment by the projection-and-clamp formula (degenerate
segments fall back to point distance). -/
noncomputable def distanceToLineSegment (p lineStart lineEnd : Pt) : ℝ :=
  let A := p.x - lineStart.x
  let B := p.y - lineStart.y
  let C := lineEnd.x - lineStart.x
  let D := lineEnd.y - lineStart.y
  let dot := A * C + B * D
  let lenSq := C * C + D * D
  if lenSq = 0 then Real.sqrt ((A * A + B * B : ℚ) : ℝ)
  else
    let param := dot / lenSq
    let xx := if param < 0 then lineStart.x
      else if 1 < param then lineEnd.x else lineStart.x + param * C
    let yy := if param < 0 then lineStart.y
      else if 1 < param then lineEnd.y else lineStart.y + param * D
    Real.sqrt (((p.x - xx) * (p.x - xx) + (p.y - yy) * (p.y - yy) : ℚ) : ℝ)

/-- A completed stroke (`DrawingLine`): its ordered points in
normalized space and its parsed `rgb(r, g, b)` color (`id` and
`strokeWidth` play no role in the engine). -/
structure DrawingLine where
  points : List Pt
  color : RGB

/-- One line segment of one stroke, carrying the stroke's color. -/
structure Seg where
  a : Pt
  b : Pt
  color : RGB

/-- All segments `(points[i], points[i+1])` of all strokes, in the
iteration order of updateLEDsFromLines (outer loop over strokes, inner
loop over consecutive point pairs, lines 171–191). -/
def allSegments (strokes : List DrawingLine) : List Seg :=
  (strokes.map (fun L =>
    (L.points.zip L.points.tail).map (fun pq => ⟨pq.1, pq.2, L.color⟩))).flatten

/-- Distance from an LED to a segment. -/
noncomputable def segDist (led : Pt) (sg : Seg) : ℝ :=
  distanceToLineSegment led sg.a sg.b

/-- `d < closestDistance` where `closestDistance` starts as JavaScript
`Infinity` (modelled as `none`). -/
def ltOpt (d : ℝ) : Option ℝ → Prop
  | none => True
  | some v => d < v

section
open scoped Classical

/-- One iteration of the inner scan of updateLEDsFromLines (lines
171–191): replace the running closest distance/color only when the
segment is under the threshold and strictly closer than the best so
far. -/
noncomputable def scanStep (led : Pt) (thr : ℝ)
    (acc : Option ℝ × Option RGB) (sg : Seg) : Option ℝ × Option RGB :=
  if segDist led sg < thr ∧ ltOpt (segDist led sg) acc.1
  then (some (segDist led sg), some sg.color) else acc

/-- The whole scan for one LED, starting from
`closestDistance = Infinity`, `closestColor = null`. -/
noncomputable def scanSegments (led : Pt) (thr : ℝ) (segs : List Seg) :
    Option ℝ × Option RGB :=
  segs.foldl (scanStep led thr) (none, none)

end

/-- An emitted `{index, color}` update. -/
structure LedUpdate where
  index : ℕ
  color : RGB
deriving DecidableEq, Repr

/-- The clear branch of updateLEDsFromLines (lines 146–155): map every
index — sentinels included — to the off color. -/
def clearAux : ℕ → List Pt → List LedUpdate
  | _, [] => []
  | i, _ :: cs => ⟨i, ⟨0, 0, 0⟩⟩ :: clearAux (i + 1) cs

/-- The proximity branch of updateLEDsFromLines (lines 163–198): skip
sentinels, and push an update exactly when the scan found a color. -/
noncomputable def paintAux (thr : ℝ) (segs : List Seg) :
    ℕ → List Pt → List LedUpdate
  | _, [] => []
  | i, c :: cs =>
    if isSentinel c then paintAux thr segs (i + 1) cs
    else
      match (scanSegments c thr segs).2 with
      | some col => ⟨i, col⟩ :: paintAux thr segs (i + 1) cs
      | none => paintAux thr segs (i + 1) cs

/-- DrawingCanvas updateLEDsFromLines (lines 143–203): with no strokes,
turn every LED off; otherwise emit only the LEDs whose scan found a
segment under the proximity threshold. -/
noncomputable def updateLEDsFromLines (coords : List Pt)
    (strokes : List DrawingLine) : List LedUpdate :=
  if strokes.isEmpty then clearAux 0 coords
  else paintAux (proximityThreshold coords) (allSegments strokes) 0 coords

/-! ### Engine lemmas -/

/-- Invariant of the scan accumulator after the segments `seen` have
been processed: either nothing was under the threshold and the
accumulator is untouched, or it holds the distance and color of a
seen segment that is under the threshold and of minimal distance. -/
def scanInv (led : Pt) (thr : ℝ) (seen : List Seg)
    (acc : Option ℝ × Option RGB) : Prop :=
  (acc = (none, none) ∧ ∀ sg ∈ seen, ¬ segDist led sg < thr) ∨
  (∃ sg ∈ seen, acc = (some (segDist led sg), some sg.color) ∧
    segDist led sg < thr ∧ ∀ sg2 ∈ seen, segDist led sg ≤ segDist led sg2)

/-- Two valid LEDs 0.1 apart used by the C4 witness: with them the
average distance is 0.1, so the threshold is 0.05. -/
def touchCoords : List Pt := [⟨1/10, 1/2⟩, ⟨1/5, 1/2⟩]

/-- A vertical stroke through the first LED of `touchCoords`, 0.1 away
from the second. -/
def touchStroke : DrawingLine := ⟨[⟨1/10, 9/20⟩, ⟨1/10, 11/20⟩], ⟨255, 0, 0⟩⟩

/-- The single LED of the C7 witness (threshold falls back to 0.025). -/
def minCoords : List Pt := [⟨1/2, 1/2⟩]

/-- A short horizontal stroke passing through the witness LED. -/
def minStroke : DrawingLine := ⟨[⟨49/100, 1/2⟩, ⟨51/100, 1/2⟩], ⟨255, 0, 0⟩⟩

/-! ## Claim theorems: geometry, validation, brightness, polling -/

/-- C1.  Converting a display-space point to intrinsic space
(multiplying per axis by the `calculateScaling` factors, as in
handleMouseMove) and back (multiplying by the inverse factors, as in
the ROI-overlay effect) returns the original point within 1e-6 relative
tolerance whenever the display rect and intrinsic video size are
positive; in the exact rational model the round trip is exact. -/
theorem display_intrinsic_round_trip (p : Pt) (videoW videoH rectW rectH : ℚ)
    (hvw : 0 < videoW) (hvh : 0 < videoH) (hrw : 0 < rectW) (hrh : 0 < rectH) :
    let s := calculateScaling videoW videoH rectW rectH
    let q := intrinsicToDisplay (displayToIntrinsic p s.1 s.2) s.1 s.2
    q = p ∧ |q.x - p.x| ≤ 1 / 1000000 * |p.x| ∧ |q.y - p.y| ≤ 1 / 1000000 * |p.y| := by
  intro s q
  have hsx : s.1 ≠ 0 := by
    simp only [s, calculateScaling]
    exact div_ne_zero hvw.ne' hrw.ne'
  have hsy : s.2 ≠ 0 := by
    simp only [s, calculateScaling]
    exact div_ne_zero hvh.ne' hrh.ne'
  have hq : q = p := by
    simp only [q, intrinsicToDisplay, displayToIntrinsic]
    cases p with
    | mk px py =>
      simp only [Pt.mk.injEq]
      constructor
      · field_simp
      · field_simp
  refine ⟨hq, ?_, ?_⟩
  · rw [hq]; simp [abs_nonneg, mul_nonneg]
  · rw [hq]; simp [abs_nonneg, mul_nonneg]

/-- C1 witness: the round trip at a concrete point and concrete
positive dimensions. -/
theorem display_intrinsic_round_trip_witness :
    let s := calculateScaling 1280 720 640 360
    let q := intrinsicToDisplay (displayToIntrinsic ⟨3, 7⟩ s.1 s.2) s.1 s.2
    q = ⟨3, 7⟩ ∧ |q.x - (3 : ℚ)| ≤ 1 / 1000000 * |(3 : ℚ)| ∧
      |q.y - (7 : ℚ)| ≤ 1 / 1000000 * |(7 : ℚ)| :=
  display_intrinsic_round_trip ⟨3, 7⟩ 1280 720 640 360
    (by norm_num) (by norm_num) (by norm_num) (by norm_num)

/-- C3 counterexample: in the resume path, with a network latency of
1500 ms, the interval's first two status requests (issued at 1000 ms
and 2000 ms) are both outstanding at time 2000 ms — two simultaneous
polls, refuting the claim for the resume path. -/
theorem resume_polls_overlap :
    resumePollIssue 0 ≠ resumePollIssue 1 ∧
    outstandingAt (resumePollIssue 0) 1500 2000 ∧
    outstandingAt (resumePollIssue 1) 1500 2000 := by
  refine ⟨by decide, ?_, ?_⟩ <;> decide

/-- C3 amended: in the fresh-start path a new poll is issued only after
the previous one resolves, so no two polls of the chain are ever
outstanding simultaneously; the resume path's fixed `setInterval`
offers no such guarantee (see the counterexample). -/
theorem fresh_polls_never_overlap (d t j k : ℕ) (hjk : j < k) :
    ¬ (outstandingAt (freshPollIssue d j) d t ∧
       outstandingAt (freshPollIssue d k) d t) := by
  rintro ⟨⟨_, hj2⟩, ⟨hk1, _⟩⟩
  have hk : j + 1 ≤ k := hjk
  have h1 : freshPollIssue d j + d + 1000 ≤ freshPollIssue d k := by
    unfold freshPollIssue
    calc j * (d + 1000) + d + 1000 = (j + 1) * (d + 1000) := by ring
    _ ≤ k * (d + 1000) := Nat.mul_le_mul_right _ hk
  omega

/-- C3 amended witness: no overlap between fresh-chain polls 0 and 1 at
a concrete time and latency. -/
theorem fresh_polls_never_overlap_witness :
    ¬ (outstandingAt (freshPollIssue 5 0) 5 3 ∧
       outstandingAt (freshPollIssue 5 1) 5 3) :=
  fresh_polls_never_overlap 5 3 0 1 (by decide)

/-- C5.  If the normalized ROI violates any invariant (`w ≤ 0`, `h ≤ 0`,
`x < 0`, `y < 0`, `x + w > 1`, or `y + h > 1`; non-finiteness cannot
arise in the exact rational model), `startMapping` fails with the
validation error and issues no request; and a `start_mapping` request is
issued only when every invariant holds, carrying exactly the normalized
ROI and the scaled brightness. -/
theorem start_mapping_validates_roi (n : NormalizedRoi) (b : ℚ) (p : Bool) :
    (¬ (0 < n.w ∧ 0 < n.h ∧ 0 ≤ n.x ∧ 0 ≤ n.y ∧ n.x + n.w ≤ 1 ∧ n.y + n.h ≤ 1) →
      startMapping n b p = .error .invalidRoiCoordinates) ∧
    (∀ req, startMapping n b p = .ok req →
      (0 < n.w ∧ 0 < n.h ∧ 0 ≤ n.x ∧ 0 ≤ n.y ∧ n.x + n.w ≤ 1 ∧ n.y + n.h ≤ 1) ∧
      req.roi = n ∧ req.brightness = b / 100 ∧ req.ledPower = p) := by
  have hiff : roiInvalidB n = true ↔
      ¬ (0 < n.w ∧ 0 < n.h ∧ 0 ≤ n.x ∧ 0 ≤ n.y ∧ n.x + n.w ≤ 1 ∧ n.y + n.h ≤ 1) := by
    simp only [roiInvalidB, Bool.or_eq_true, decide_eq_true_eq]
    constructor
    · rintro (((((h | h) | h) | h) | h) | h) ⟨h1, h2, h3, h4, h5, h6⟩ <;> linarith
    · intro h
      by_contra hc
      push_neg at hc
      obtain ⟨⟨⟨⟨⟨c1, c2⟩, c3⟩, c4⟩, c5⟩, c6⟩ := hc
      exact h ⟨c1, c2, c3, c4, c5, c6⟩
  constructor
  · intro hbad
    unfold startMapping
    rw [if_pos (hiff.mpr hbad)]
  · intro req hok
    unfold startMapping at hok
    by_cases hinv : roiInvalidB n
    · rw [if_pos hinv] at hok; exact absurd hok (by simp)
    · rw [if_neg hinv] at hok
      have hgood := not_not.mp (fun hbad => hinv (hiff.mpr hbad))
      refine ⟨hgood, ?_⟩
      cases hok
      exact ⟨rfl, rfl, rfl⟩

/-- C5 witness: a concrete ROI with `x + w > 1` is rejected with no
request issued. -/
theorem start_mapping_validates_roi_witness :
    startMapping ⟨1/2, 0, 3/5, 1/2⟩ 50 true = .error .invalidRoiCoordinates :=
  (start_mapping_validates_roi ⟨1/2, 0, 3/5, 1/2⟩ 50 true).1
    (by intro h; norm_num at h)

/-- C10.  For the same brightness state `b`, the fresh-start request
body carries `b / 100` while the resume query carries the raw `b`: the
two session-start paths transmit brightness on different scales, and
the transmitted values differ whenever `b ≠ 0`. -/
theorem brightness_scale_mismatch (n : NormalizedRoi) (b : ℚ) (p : Bool)
    (i : ℕ) (req : StartRequest) (hok : startMapping n b p = .ok req) :
    req.brightness = b / 100 ∧ (resumeMappingQuery i b).brightness = b ∧
    (b ≠ 0 → req.brightness ≠ (resumeMappingQuery i b).brightness) := by
  unfold startMapping at hok
  by_cases hinv : roiInvalidB n
  · rw [if_pos hinv] at hok; exact absurd hok (by simp)
  · rw [if_neg hinv] at hok
    cases hok
    refine ⟨rfl, rfl, fun hb heq => ?_⟩
    simp only [resumeMappingQuery] at heq
    have h3 : b / 100 * 100 = b * 100 := by rw [heq]
    have h4 : b / 100 * 100 = b := by ring
    exact hb (by linarith)

/-- C10 witness: at brightness 50 the fresh path sends 1/2 while the
resume path sends 50. -/
theorem brightness_scale_mismatch_witness :
    (⟨⟨0, 0, 1/2, 1/2⟩, 50 / 100, true⟩ : StartRequest).brightness = 50 / 100 ∧
    (resumeMappingQuery 3 50).brightness = 50 ∧
    ((50 : ℚ) ≠ 0 → (⟨⟨0, 0, 1/2, 1/2⟩, 50 / 100, true⟩ : StartRequest).brightness ≠
      (resumeMappingQuery 3 50).brightness) :=
  brightness_scale_mismatch ⟨0, 0, 1/2, 1/2⟩ 50 true 3
    ⟨⟨0, 0, 1/2, 1/2⟩, 50 / 100, true⟩ (by norm_num [startMapping, roiInvalidB])

theorem exportMapping_some_iff (coords : List Pt) (r : Roi) (vw vh : ℚ)
    (f : MappingFileM) :
    exportMapping coords (some r) vw vh = some f ↔
    coords ≠ [] ∧ f = mkMappingFile coords r vw vh := by
  cases coords with
  | nil => simp [exportMapping]
  | cons a as => simp [exportMapping, eq_comm]

/-! ### Codec lemmas -/

theorem exportLedsAux_length (pl : Placement) :
    ∀ (i : ℕ) (cs : List Pt), (exportLedsAux pl i cs).length = countValid cs := by
  intro i cs
  induction cs generalizing i with
  | nil => simp [exportLedsAux, countValid]
  | cons c cs ih =>
    by_cases hs : isSentinel c
    · simp [exportLedsAux, hs, countValid, List.filter, ih]
    · simp only [exportLedsAux, hs, if_neg, Bool.false_eq_true, not_false_eq_true,
        if_false, List.length_cons, ih]
      simp [countValid, List.filter, hs]

theorem mem_exportLedsAux (pl : Placement) :
    ∀ (cs : List Pt) (i : ℕ) (e : ExportLed),
      e ∈ exportLedsAux pl i cs ↔
      ∃ j c, cs[j]? = some c ∧ isSentinel c = false ∧
        e = ⟨i + j, jsRound (pl.offX + c.x * pl.sw), jsRound (pl.offY + c.y * pl.sh)⟩ := by
  intro cs
  induction cs with
  | nil => simp [exportLedsAux]
  | cons c cs ih =>
    intro i e
    by_cases hs : isSentinel c
    · rw [exportLedsAux, if_pos hs, ih (i + 1) e]
      constructor
      · rintro ⟨j, c', hget, hval, he⟩
        refine ⟨j + 1, c', by simpa using hget, hval, ?_⟩
        rw [he]
        congr 1
        omega
      · rintro ⟨j, c', hget, hval, he⟩
        cases j with
        | zero =>
          simp only [List.getElem?_cons_zero, Option.some.injEq] at hget
          rw [← hget] at hval
          rw [hs] at hval
          exact absurd hval (by simp)
        | succ j =>
          refine ⟨j, c', by simpa using hget, hval, ?_⟩
          rw [he]
          congr 1
          omega
    · rw [exportLedsAux, if_neg hs, List.mem_cons, ih (i + 1) e]
      constructor
      · rintro (he | ⟨j, c', hget, hval, he⟩)
        · exact ⟨0, c, by simp, by simpa using hs, by simpa using he⟩
        · refine ⟨j + 1, c', by simpa using hget, hval, ?_⟩
          rw [he]
          congr 1
          omega
      · rintro ⟨j, c', hget, hval, he⟩
        cases j with
        | zero =>
          simp only [List.getElem?_cons_zero, Option.some.injEq] at hget
          subst hget
          left
          simpa using he
        | succ j =>
          right
          refine ⟨j, c', by simpa using hget, hval, ?_⟩
          rw [he]
          congr 1
          omega

/-! ### Claim theorems: codec -/

/-- C8.  A produced mapping file records `totalLeds` as the full
coordinate-list length and `validLeds` as the number of exported
(non-sentinel) LEDs; the placement is the aspect-preserving fit
(width-fit with vertical centering when `roiAspect > canvasAspect`,
else height-fit with horizontal centering); every valid LED appears in
the exported list at `roiPlacement.origin + coord * roiPlacement.size`
rounded to integers; and no sentinel LED's index appears at all. -/
theorem export_placement_and_metadata
    (coords : List Pt) (r : Roi) (vw vh : ℚ) (f : MappingFileM)
    (h : exportMapping coords (some r) vw vh = some f) :
    f.totalLeds = coords.length ∧
    f.validLeds = countValid coords ∧
    ((160 / 90 : ℚ) < r.width / r.height →
      roiPlacement r = ⟨0, (90 - 160 / (r.width / r.height)) / 2, 160,
        160 / (r.width / r.height)⟩) ∧
    (¬ (160 / 90 : ℚ) < r.width / r.height →
      roiPlacement r = ⟨(160 - 90 * (r.width / r.height)) / 2, 0,
        90 * (r.width / r.height), 90⟩) ∧
    (∀ i c, coords[i]? = some c → isSentinel c = false →
      (⟨i, jsRound ((roiPlacement r).offX + c.x * (roiPlacement r).sw),
           jsRound ((roiPlacement r).offY + c.y * (roiPlacement r).sh)⟩ : ExportLed)
        ∈ f.leds) ∧
    (∀ i c, coords[i]? = some c → isSentinel c = true →
      ∀ e ∈ f.leds, e.index ≠ i) := by
  obtain ⟨-, rfl⟩ := (exportMapping_some_iff coords r vw vh f).mp h
  refine ⟨rfl, exportLedsAux_length _ _ _, ?_, ?_, ?_, ?_⟩
  · intro hlt
    rw [roiPlacement, if_pos hlt]
  · intro hge
    rw [roiPlacement, if_neg hge]
  · intro i c hget hval
    exact (mem_exportLedsAux _ coords 0 _).mpr ⟨i, c, hget, hval, by simp⟩
  · intro i c hget hsent e he
    obtain ⟨j, c', hget', hval', he'⟩ := (mem_exportLedsAux _ coords 0 _).mp he
    intro hidx
    rw [he'] at hidx
    simp only [Nat.zero_add] at hidx
    rw [hidx] at hget'
    rw [hget] at hget'
    cases hget'
    rw [hsent] at hval'
    exact absurd hval' (by simp)

/-- C8 witness: export of two LEDs (one valid, one sentinel) over a
160×90-aspect ROI, with the concrete placement, membership of the valid
LED, absence of the sentinel index, and the metadata counts. -/
theorem export_placement_and_metadata_witness :
    ∃ f, exportMapping [(⟨1/2, 1/2⟩ : Pt), ⟨0, 0⟩] (some ⟨0, 0, 160, 90⟩) 1280 720 = some f ∧
      f.totalLeds = 2 ∧ f.validLeds = countValid [(⟨1/2, 1/2⟩ : Pt), ⟨0, 0⟩] ∧
      (⟨0, jsRound ((roiPlacement ⟨0, 0, 160, 90⟩).offX + (1/2) * (roiPlacement ⟨0, 0, 160, 90⟩).sw),
           jsRound ((roiPlacement ⟨0, 0, 160, 90⟩).offY + (1/2) * (roiPlacement ⟨0, 0, 160, 90⟩).sh)⟩ : ExportLed)
        ∈ f.leds ∧
      (∀ e ∈ f.leds, e.index ≠ 1) := by
  have hexp : exportMapping [(⟨1/2, 1/2⟩ : Pt), ⟨0, 0⟩] (some ⟨0, 0, 160, 90⟩) 1280 720 =
      some ⟨2, 1, 160, 90, 0, 0, 160, 90, ⟨0, 0, 160, 90⟩, 1280, 720, [⟨0, 80, 45⟩]⟩ := by
    norm_num [exportMapping, mkMappingFile, roiPlacement, exportLedsAux, isSentinel, jsRound]
  have h := export_placement_and_metadata _ _ _ _ _ hexp
  exact ⟨_, hexp, h.1, h.2.1,
    h.2.2.2.2.1 0 ⟨1/2, 1/2⟩ (by simp) (by norm_num [isSentinel]),
    fun e he => h.2.2.2.2.2 1 ⟨0, 0⟩ (by simp) (by simp [isSentinel]) e he⟩

theorem spec_export_eq :
    exportMapping specCoords (some specRoi) 1280 720 = some specFile := by
  norm_num [specCoords, specRoi, specFile, exportMapping, mkMappingFile, roiPlacement,
    exportLedsAux, isSentinel, jsRound]

/-- C6 amended.  Importing an exported file always restores the
`originalROI` and the video dimensions verbatim; and at the spec's
example the normalized coordinates (sentinel included, at its original
index) are reproduced exactly.  The blanket ≤ 1/160 tolerance of the
original claim does not hold for all sessions (see the
counterexample). -/
theorem export_import_restores_session :
    (∀ (coords : List Pt) (r : Roi) (vw vh : ℚ) (f : MappingFileM),
      exportMapping coords (some r) vw vh = some f →
        (importMapping f).2.1 = r ∧ (importMapping f).2.2.1 = vw ∧
        (importMapping f).2.2.2 = vh) ∧
    (exportMapping specCoords (some specRoi) 1280 720 = some specFile ∧
      (importMapping specFile).1 = specCoords) := by
  constructor
  · intro coords r vw vh f h
    obtain ⟨-, rfl⟩ := (exportMapping_some_iff coords r vw vh f).mp h
    exact ⟨rfl, rfl, rfl⟩
  · refine ⟨spec_export_eq, ?_⟩
    norm_num [specCoords, specFile, specRoi, importMapping, importLedStep, clamp01,
      List.set, List.replicate]

/-- C6 witness: the universal restoration part applied at the spec's
example file. -/
theorem export_import_restores_session_witness :
    (importMapping specFile).2.1 = specRoi ∧
    (importMapping specFile).2.2.1 = 1280 ∧ (importMapping specFile).2.2.2 = 720 :=
  export_import_restores_session.1 specCoords specRoi 1280 720 specFile spec_export_eq

/-- C6 counterexample: exporting the session with one LED at
`(0.5, 0.5)` and the 10×200 ROI and importing the file back yields the
coordinate `(0.4, 0.5)` — an error of 0.1 on the x axis, far above the
claimed 1/160 tolerance. -/
theorem export_import_tolerance_violated :
    exportMapping [(⟨1/2, 1/2⟩ : Pt)] (some cexRoi) 1280 720 = some cexFile ∧
    (importMapping cexFile).1 = [(⟨2/5, 1/2⟩ : Pt)] ∧
    ¬ |(2/5 : ℚ) - 1/2| ≤ 1 / 160 := by
  refine ⟨?_, ?_, by rw [abs_sub_comm]; rw [abs_of_pos (by norm_num)]; norm_num⟩
  · norm_num [cexRoi, cexFile, exportMapping, mkMappingFile, roiPlacement,
      exportLedsAux, isSentinel, jsRound]
  · norm_num [cexFile, cexRoi, importMapping, importLedStep, clamp01,
      List.set, List.replicate]

theorem scanStep_inv (led : Pt) (thr : ℝ) (seen : List Seg)
    (acc : Option ℝ × Option RGB) (sg : Seg) (h : scanInv led thr seen acc) :
    scanInv led thr (seen ++ [sg]) (scanStep led thr acc sg) := by
  unfold scanStep
  by_cases hc : segDist led sg < thr ∧ ltOpt (segDist led sg) acc.1
  · rw [if_pos hc]
    right
    refine ⟨sg, by simp, rfl, hc.1, ?_⟩
    intro sg2 hsg2
    rcases List.mem_append.mp hsg2 with h2 | h2
    · rcases h with ⟨hacc, hnone⟩ | ⟨sg3, hsg3, hacc, hlt3, hmin⟩
      · have := hnone sg2 h2
        linarith [hc.1, not_lt.mp this]
      · have hlt : segDist led sg < segDist led sg3 := by
          have h4 := hc.2
          rw [hacc] at h4
          exact h4
        exact le_of_lt (lt_of_lt_of_le hlt (hmin sg2 h2))
    · have h3 : sg2 = sg := by simpa using h2
      rw [h3]
  · rw [if_neg hc]
    rcases h with ⟨hacc, hnone⟩ | ⟨sg3, hsg3, hacc, hlt3, hmin⟩
    · left
      refine ⟨hacc, ?_⟩
      intro sg2 hsg2
      rcases List.mem_append.mp hsg2 with h2 | h2
      · exact hnone sg2 h2
      · have h3 : sg2 = sg := by simpa using h2
        rw [h3]
        intro hlt
        refine hc ⟨hlt, ?_⟩
        rw [hacc]
        exact trivial
    · right
      refine ⟨sg3, List.mem_append.mpr (Or.inl hsg3), hacc, hlt3, ?_⟩
      intro sg2 hsg2
      rcases List.mem_append.mp hsg2 with h2 | h2
      · exact hmin sg2 h2
      · have h3 : sg2 = sg := by simpa using h2
        rw [h3]
        by_cases h4 : segDist led sg < thr
        · have h5 : ¬ ltOpt (segDist led sg) acc.1 := fun hl => hc ⟨h4, hl⟩
          rw [hacc] at h5
          exact not_lt.mp h5
        · exact le_of_lt (lt_of_lt_of_le hlt3 (not_lt.mp h4))

theorem scan_go (led : Pt) (thr : ℝ) :
    ∀ (rest seen : List Seg) (acc : Option ℝ × Option RGB),
      scanInv led thr seen acc →
      scanInv led thr (seen ++ rest) (rest.foldl (scanStep led thr) acc) := by
  intro rest
  induction rest with
  | nil =>
    intro seen acc h
    simpa using h
  | cons sg rest ih =>
    intro seen acc h
    have h2 := scanStep_inv led thr seen acc sg h
    have h3 := ih (seen ++ [sg]) (scanStep led thr acc sg) h2
    simpa [List.append_assoc] using h3

theorem scanSegments_inv (led : Pt) (thr : ℝ) (segs : List Seg) :
    scanInv led thr segs (scanSegments led thr segs) := by
  have h := scan_go led thr segs [] (none, none) (Or.inl ⟨rfl, by simp⟩)
  simpa [scanSegments] using h

theorem mem_clearAux :
    ∀ (cs : List Pt) (k i : ℕ) (c : Pt), cs[i]? = some c →
      (⟨k + i, ⟨0, 0, 0⟩⟩ : LedUpdate) ∈ clearAux k cs := by
  intro cs
  induction cs with
  | nil => intro k i c h; simp at h
  | cons c0 cs ih =>
    intro k i c h
    cases i with
    | zero => simp [clearAux]
    | succ i =>
      rw [clearAux, List.mem_cons]
      right
      have h2 := ih (k + 1) i c (by simpa using h)
      have h3 : k + 1 + i = k + (i + 1) := by omega
      rw [h3] at h2
      exact h2

theorem mem_paintAux (thr : ℝ) (segs : List Seg) :
    ∀ (cs : List Pt) (k : ℕ) (u : LedUpdate),
      u ∈ paintAux thr segs k cs ↔
      ∃ j c, cs[j]? = some c ∧ isSentinel c = false ∧
        (scanSegments c thr segs).2 = some u.color ∧ u.index = k + j := by
  intro cs
  induction cs with
  | nil => simp [paintAux]
  | cons c cs ih =>
    intro k u
    by_cases hs : isSentinel c
    · rw [paintAux, if_pos hs, ih (k + 1) u]
      constructor
      · rintro ⟨j, c', hget, hval, hscan, hidx⟩
        exact ⟨j + 1, c', by simpa using hget, hval, hscan, by omega⟩
      · rintro ⟨j, c', hget, hval, hscan, hidx⟩
        cases j with
        | zero =>
          simp only [List.getElem?_cons_zero, Option.some.injEq] at hget
          subst hget
          rw [hs] at hval
          exact absurd hval (by simp)
        | succ j =>
          exact ⟨j, c', by simpa using hget, hval, hscan, by omega⟩
    · rw [paintAux, if_neg hs]
      rcases hsc : (scanSegments c thr segs).2 with - | col
      · rw [ih (k + 1) u]
        constructor
        · rintro ⟨j, c', hget, hval, hscan, hidx⟩
          exact ⟨j + 1, c', by simpa using hget, hval, hscan, by omega⟩
        · rintro ⟨j, c', hget, hval, hscan, hidx⟩
          cases j with
          | zero =>
            simp only [List.getElem?_cons_zero, Option.some.injEq] at hget
            subst hget
            rw [hsc] at hscan
            exact absurd hscan (by simp)
          | succ j =>
            exact ⟨j, c', by simpa using hget, hval, hscan, by omega⟩
      · rw [List.mem_cons, ih (k + 1) u]
        constructor
        · rintro (hu | ⟨j, c', hget, hval, hscan, hidx⟩)
          · refine ⟨0, c, by simp, by simpa using hs, ?_, by simp [hu]⟩
            rw [hsc, hu]
          · exact ⟨j + 1, c', by simpa using hget, hval, hscan, by omega⟩
        · rintro ⟨j, c', hget, hval, hscan, hidx⟩
          cases j with
          | zero =>
            simp only [List.getElem?_cons_zero, Option.some.injEq] at hget
            subst hget
            rw [hsc] at hscan
            left
            have hcol : col = u.color := by simpa using hscan
            have hidx0 : u.index = k := by omega
            cases u
            simp only at hcol hidx0
            rw [hcol, hidx0]
          | succ j =>
            right
            exact ⟨j, c', by simpa using hget, hval, hscan, by omega⟩

theorem two_le_countValid_of_adjacentPair :
    ∀ (coords : List Pt) (pr : Pt × Pt), pr ∈ adjacentPairs coords →
      isSentinel pr.1 = false → isSentinel pr.2 = false →
      2 ≤ countValid coords := by
  intro coords
  induction coords with
  | nil => simp [adjacentPairs]
  | cons c cs ih =>
    intro pr hpr h1 h2
    rw [adjacentPairs] at hpr
    rcases List.mem_append.mp hpr with hm | hm
    · obtain ⟨c2, hc2, heq⟩ := List.mem_map.mp hm
      have hc2m : c2 ∈ cs := List.take_subset 4 cs hc2
      rw [← heq] at h1 h2
      simp only at h1 h2
      have hone : 1 ≤ countValid cs := by
        have hmem : c2 ∈ cs.filter (fun x => ! isSentinel x) :=
          List.mem_filter.mpr ⟨hc2m, by simp [h2]⟩
        have := List.length_pos.mpr (List.ne_nil_of_mem hmem)
        unfold countValid
        omega
      unfold countValid
      rw [List.filter_cons, if_pos (by simp [h1])]
      unfold countValid at hone
      simp only [List.length_cons]
      omega
    · have h3 := ih pr hm h1 h2
      unfold countValid at h3 ⊢
      rw [List.filter_cons]
      by_cases hs : (! isSentinel c) = true
      · rw [if_pos hs]
        simp only [List.length_cons]
        omega
      · rw [if_neg hs]
        exact h3

theorem calculateAverageDistance_fallback (coords : List Pt)
    (h : countValid coords < 2) : calculateAverageDistance coords = 1 / 20 := by
  rw [calculateAverageDistance]
  by_cases hlen : coords.length < 2
  · rw [if_pos hlen]
  · rw [if_neg hlen]
    have hvp : (adjacentPairs coords).filter
        (fun pr => ! isSentinel pr.1 && ! isSentinel pr.2) = [] := by
      rw [List.filter_eq_nil_iff]
      intro pr hpr hp
      simp only [Bool.and_eq_true, Bool.not_eq_true'] at hp
      exact absurd (two_le_countValid_of_adjacentPair coords pr hpr hp.1 hp.2)
        (by omega)
    rw [hvp]
    simp

/-! ### Claim theorems: stroke engine -/

/-- C2 counterexample: with exactly one (valid) LED in the list, the
proximity threshold the engine uses is 1/40 = 0.025 — the 0.05 average
fallback halved — not the claimed 0.05. -/
theorem single_led_threshold_not_fallback :
    proximityThreshold [(⟨3/10, 2/5⟩ : Pt)] = 1 / 40 ∧ ((1 : ℝ) / 40) ≠ 1 / 20 := by
  constructor
  · rw [proximityThreshold, calculateAverageDistance, if_pos (by simp)]
    norm_num
  · norm_num

/-- C2 amended.  With fewer than 2 valid (non-sentinel) LEDs,
`calculateAverageDistance` returns the fixed fallback 0.05 (never an
average of an empty set), and the proximity threshold the engine
actually uses is that fallback halved, 0.025. -/
theorem proximity_threshold_fallback (coords : List Pt)
    (h : countValid coords < 2) :
    calculateAverageDistance coords = 1 / 20 ∧
    proximityThreshold coords = 1 / 40 := by
  have h1 := calculateAverageDistance_fallback coords h
  refine ⟨h1, ?_⟩
  rw [proximityThreshold, h1]
  norm_num

/-- C2 witness: a two-entry list with one sentinel, so exactly one
valid LED; its average distance is the fallback and its threshold the
fallback halved. -/
theorem proximity_threshold_fallback_witness :
    countValid [(⟨3/10, 2/5⟩ : Pt), ⟨0, 0⟩] < 2 ∧
    calculateAverageDistance [(⟨3/10, 2/5⟩ : Pt), ⟨0, 0⟩] = 1 / 20 ∧
    proximityThreshold [(⟨3/10, 2/5⟩ : Pt), ⟨0, 0⟩] = 1 / 40 := by
  have hcv : countValid [(⟨3/10, 2/5⟩ : Pt), ⟨0, 0⟩] < 2 := by
    norm_num [countValid, isSentinel, List.filter]
  have h := proximity_threshold_fallback _ hcv
  exact ⟨hcv, h.1, h.2⟩

/-- C9.  Recomputation is deterministic and idempotent: the engine is a
pure function of the coordinate list and the stroke list, so equal
inputs produce identical update sets. -/
theorem stroke_engine_deterministic (c1 c2 : List Pt)
    (l1 l2 : List DrawingLine) (hc : c1 = c2) (hl : l1 = l2) :
    updateLEDsFromLines c1 l1 = updateLEDsFromLines c2 l2 := by
  rw [hc, hl]

/-- C9 witness: two runs on the same concrete input coincide. -/
theorem stroke_engine_deterministic_witness :
    updateLEDsFromLines [(⟨1/2, 1/2⟩ : Pt)] [] =
    updateLEDsFromLines [(⟨1/2, 1/2⟩ : Pt)] [] :=
  stroke_engine_deterministic [(⟨1/2, 1/2⟩ : Pt)] [(⟨1/2, 1/2⟩ : Pt)] [] [] rfl rfl

/-- C4.  On an empty stroke list the emitted update turns off (color
0,0,0) the LED at every index — in particular every valid LED; on a
non-empty stroke list, an LED with no segment of any stroke under the
proximity threshold is absent from the update (its previous color is
left unchanged). -/
theorem clear_and_untouched_semantics (coords : List Pt)
    (strokes : List DrawingLine) :
    (∀ i c, coords[i]? = some c →
      (⟨i, ⟨0, 0, 0⟩⟩ : LedUpdate) ∈ updateLEDsFromLines coords []) ∧
    (strokes ≠ [] → ∀ i c, coords[i]? = some c →
      (∀ sg ∈ allSegments strokes, ¬ segDist c sg < proximityThreshold coords) →
      ∀ u ∈ updateLEDsFromLines coords strokes, u.index ≠ i) := by
  constructor
  · intro i c hget
    rw [updateLEDsFromLines, if_pos (by simp)]
    have h := mem_clearAux coords 0 i c hget
    simpa using h
  · intro hne i c hget hfar u hu hidx
    rw [updateLEDsFromLines, if_neg (by simpa using hne)] at hu
    obtain ⟨j, c', hget', hval', hscan', hidx'⟩ :=
      (mem_paintAux _ _ coords 0 u).mp hu
    have hj : j = i := by omega
    subst hj
    rw [hget] at hget'
    injection hget' with hcc
    subst hcc
    rcases scanSegments_inv c (proximityThreshold coords) (allSegments strokes)
      with ⟨hacc, -⟩ | ⟨sg, hsg, hacc, hlt, -⟩
    · rw [hacc] at hscan'
      exact absurd hscan' (by simp)
    · exact hfar sg hsg hlt

/-- C4 witness: on the empty stroke list LED 0 is turned off; on the
one-stroke list the far LED (index 1, distance 0.1 ≥ threshold 0.05) is
absent from the update. -/
theorem clear_and_untouched_semantics_witness :
    ((⟨0, ⟨0, 0, 0⟩⟩ : LedUpdate) ∈ updateLEDsFromLines touchCoords []) ∧
    ([touchStroke] ≠ []) ∧
    (∀ u ∈ updateLEDsFromLines touchCoords [touchStroke], u.index ≠ 1) := by
  have hsegs : allSegments [touchStroke] =
      [⟨⟨1/10, 9/20⟩, ⟨1/10, 11/20⟩, ⟨255, 0, 0⟩⟩] := by
    simp [allSegments, touchStroke]
  have hfilter : (adjacentPairs touchCoords).filter
      (fun pr => ! isSentinel pr.1 && ! isSentinel pr.2) =
      [((⟨1/10, 1/2⟩ : Pt), (⟨1/5, 1/2⟩ : Pt))] := by
    norm_num [adjacentPairs, touchCoords, isSentinel]
  have hs100 : Real.sqrt (100 : ℝ) = 10 := by
    rw [show (100 : ℝ) = 10 ^ 2 by norm_num]
    exact Real.sqrt_sq (by norm_num)
  have hpt : ptDist ⟨1/10, 1/2⟩ ⟨1/5, 1/2⟩ = 1 / 10 := by
    rw [ptDist]
    norm_num
    rw [hs100]
    norm_num
  have hthr : proximityThreshold touchCoords = 1 / 20 := by
    rw [proximityThreshold, calculateAverageDistance,
      if_neg (by norm_num [touchCoords]), hfilter]
    rw [if_neg (by simp)]
    simp only [List.map_cons, List.map_nil, List.sum_cons, List.sum_nil,
      List.length_cons, List.length_nil]
    rw [hpt]
    norm_num
  have hdist : segDist ⟨1/5, 1/2⟩ ⟨⟨1/10, 9/20⟩, ⟨1/10, 11/20⟩, ⟨255, 0, 0⟩⟩ =
      1 / 10 := by
    simp only [segDist, distanceToLineSegment]
    norm_num
    rw [hs100]
    norm_num
  have h := clear_and_untouched_semantics touchCoords [touchStroke]
  refine ⟨h.1 0 ⟨1/10, 1/2⟩ (by simp [touchCoords]), by simp, ?_⟩
  refine h.2 (by simp) 1 ⟨1/5, 1/2⟩ (by simp [touchCoords]) ?_
  intro sg hsg
  rw [hsegs] at hsg
  have hsg2 : sg = ⟨⟨1/10, 9/20⟩, ⟨1/10, 11/20⟩, ⟨255, 0, 0⟩⟩ := by simpa using hsg
  rw [hsg2, hdist, hthr]
  norm_num

/-- C7.  For a non-empty stroke list, every emitted `{index, color}`
update points at a valid LED and carries the color of a segment that is
under the proximity threshold and of minimal distance to the LED among
all segments of all strokes — selection by minimum distance, not draw
order. -/
theorem stroke_color_from_minimal_segment (coords : List Pt)
    (strokes : List DrawingLine) (i : ℕ) (col : RGB)
    (hne : strokes ≠ [])
    (hmem : (⟨i, col⟩ : LedUpdate) ∈ updateLEDsFromLines coords strokes) :
    ∃ c, coords[i]? = some c ∧ isSentinel c = false ∧
      ∃ sg ∈ allSegments strokes, sg.color = col ∧
        segDist c sg < proximityThreshold coords ∧
        ∀ sg2 ∈ allSegments strokes, segDist c sg ≤ segDist c sg2 := by
  rw [updateLEDsFromLines, if_neg (by simpa using hne)] at hmem
  obtain ⟨j, c, hget, hval, hscan, hidx⟩ :=
    (mem_paintAux _ _ coords 0 _).mp hmem
  have hidx2 : i = 0 + j := hidx
  have hji : j = i := by omega
  subst hji
  refine ⟨c, hget, hval, ?_⟩
  rcases scanSegments_inv c (proximityThreshold coords) (allSegments strokes)
    with ⟨hacc, -⟩ | ⟨sg, hsg, hacc, hlt, hmin⟩
  · rw [hacc] at hscan
    exact absurd hscan (by simp)
  · rw [hacc] at hscan
    have hcol : sg.color = col := by simpa using hscan
    exact ⟨sg, hsg, hcol, hlt, hmin⟩

/-- C7 witness: the update emitted for the witness LED carries the
color of the (unique, minimal, distance-0) segment of the stroke. -/
theorem stroke_color_from_minimal_segment_witness :
    ∃ c, minCoords[0]? = some c ∧ isSentinel c = false ∧
      ∃ sg ∈ allSegments [minStroke], sg.color = (⟨255, 0, 0⟩ : RGB) ∧
        segDist c sg < proximityThreshold minCoords ∧
        ∀ sg2 ∈ allSegments [minStroke], segDist c sg ≤ segDist c sg2 := by
  have hthr : proximityThreshold minCoords = 1 / 40 := by
    rw [proximityThreshold, calculateAverageDistance, if_pos (by simp [minCoords])]
    norm_num
  have hsegs : allSegments [minStroke] =
      [⟨⟨49/100, 1/2⟩, ⟨51/100, 1/2⟩, ⟨255, 0, 0⟩⟩] := by
    simp [allSegments, minStroke]
  have hd : segDist ⟨1/2, 1/2⟩ ⟨⟨49/100, 1/2⟩, ⟨51/100, 1/2⟩, ⟨255, 0, 0⟩⟩ =
      0 := by
    simp only [segDist, distanceToLineSegment]
    norm_num
  have hcond : segDist ⟨1/2, 1/2⟩ ⟨⟨49/100, 1/2⟩, ⟨51/100, 1/2⟩, ⟨255, 0, 0⟩⟩ <
      proximityThreshold minCoords ∧
      ltOpt (segDist ⟨1/2, 1/2⟩ ⟨⟨49/100, 1/2⟩, ⟨51/100, 1/2⟩, ⟨255, 0, 0⟩⟩)
        ((none : Option ℝ), (none : Option RGB)).1 :=
    ⟨by rw [hd, hthr]; norm_num, trivial⟩
  have hscan : scanSegments ⟨1/2, 1/2⟩ (proximityThreshold minCoords)
      (allSegments [minStroke]) = (some 0, some ⟨255, 0, 0⟩) := by
    rw [hsegs, scanSegments, List.foldl_cons, List.foldl_nil, scanStep,
      if_pos hcond, hd]
  have hsent : isSentinel (⟨1/2, 1/2⟩ : Pt) = false := by
    norm_num [isSentinel]
  have hmem : (⟨0, (⟨255, 0, 0⟩ : RGB)⟩ : LedUpdate) ∈
      updateLEDsFromLines minCoords [minStroke] := by
    rw [updateLEDsFromLines, if_neg (by simp)]
    exact (mem_paintAux _ _ minCoords 0 _).mpr
      ⟨0, ⟨1/2, 1/2⟩, by simp [minCoords], hsent, by rw [hscan], by simp⟩
  exact stroke_color_from_minimal_segment minCoords [minStroke] 0 ⟨255, 0, 0⟩
    (by simp) hmem

end LEDWall
